import Mathlib

/-!
Verification of the agentic execution engine of `taam-workflow`.

Part 1 embeds `executeRequest` from `src/sim/providers/openai/index.ts`:
the conversation loop that alternates model calls and tool executions,
accumulating token usage, time segments and a transcript.

Part 2 embeds `handleMultipleRuns` from
`src/sim/app/w/[id]/components/control-bar/control-bar.tsx`:
the sequential batch runner with cooperative cancellation and the
best-effort statistics side call.

Wall-clock time is modelled by a natural-number clock threaded through the
state; it advances exactly at the points where the source reads
`Date.now()` around a model call or a tool execution, by the duration the
environment assigns to that call.  External effects (the provider endpoint
and the tool registry) are supplied as functions in an environment record.
-/

namespace Taam

/-- JSON-like values exchanged with tools. -/
inductive JValue where
  | str (s : String)
  | num (n : Int)
  | bool (b : Bool)
  | null
deriving DecidableEq

/-- A parsed JSON object: an association list of keys to values
(mirrors a JavaScript object, first occurrence of a key wins on lookup). -/
abbrev ArgMap := List (String × JValue)

/-- JavaScript object spread of `overlay` onto `base`
(`const mergedArgs = ... tool.params, ...toolArgs` in the source):
keys of the base in order, each overridden by the overlay's value when the
overlay also binds that key, followed by the overlay's keys that are not in
the base. -/
def spreadMerge (base overlay : ArgMap) : ArgMap :=
  base.map (fun p =>
    match overlay.lookup p.1 with
    | some v => (p.1, v)
    | none => p)
  ++ overlay.filter (fun p => (base.lookup p.1).isNone)

/-- One requested tool invocation as it appears in a model response
(`tool_calls` entry): correlation id, function name, the raw argument
string, and the result of `JSON.parse` on it (`none` models a parse
failure, which the source catches per call). -/
structure ToolCallReq where
  id : String
  name : String
  rawArguments : String
  parsedArguments : Option ArgMap
deriving DecidableEq

/-- Token usage reported by the provider for one call. -/
structure Usage where
  prompt : Nat
  completion : Nat
  total : Nat
deriving DecidableEq

/-- One normalized model response: optional text content, requested tool
invocations, optional usage, and the wall-clock duration of the call. -/
structure ModelResponse where
  content : Option String
  toolCalls : List ToolCallReq
  usage : Option Usage
  duration : Nat
deriving DecidableEq

/-- Result of `executeTool`: success flag, output payload and the
wall-clock duration of the execution. -/
structure ToolExecResult where
  success : Bool
  output : JValue
  duration : Nat
deriving DecidableEq

/-- A caller-supplied tool: id, description and default parameters
(`tool.params` in the source). -/
structure ToolDescr where
  id : String
  description : String
  params : ArgMap
deriving DecidableEq

/-- Transcript messages, restricted to the shapes the loop builds:
the initial system/user/context messages, opaque prior messages, and the
assistant tool-call / tool-result pairs appended during the loop. -/
structure Msg where
  role : String
  content : Option String
  toolCallId : Option String
  toolCallName : Option String
  toolCallRawArgs : Option String
  resultPayload : Option JValue
deriving DecidableEq

/-- The system-prompt message. -/
def Msg.system (s : String) : Msg := ⟨"system", some s, none, none, none, none⟩

/-- The context message (pushed with role `user`). -/
def Msg.user (s : String) : Msg := ⟨"user", some s, none, none, none, none⟩

/-- The assistant message carrying a single tool-call declaration
(`role: assistant, content: null, tool_calls: [...]` in the source). -/
def Msg.assistantToolCall (callId name rawArgs : String) : Msg :=
  ⟨"assistant", none, some callId, some name, some rawArgs, none⟩

/-- The tool-result message (`role: tool, tool_call_id, content`). -/
def Msg.toolResult (callId : String) (output : JValue) : Msg :=
  ⟨"tool", none, some callId, none, none, some output⟩

/-- The normalized provider request consumed by `executeRequest`. -/
structure ProviderRequest where
  apiKey : Option String
  model : Option String
  systemPrompt : Option String
  context : Option String
  messages : List Msg
  tools : List ToolDescr

/-- The external world: the provider endpoint, indexed by the ordinal of
the model call (0 = initial call), and the tool registry's
`executeTool`. A `.error` response models a thrown provider call. -/
structure Env where
  respond : Nat → Except String ModelResponse
  execTool : String → ArgMap → ToolExecResult

/-- Kind of a timed segment. -/
inductive SegType where
  | model
  | tool
deriving DecidableEq

/-- One entry of `timeSegments`. -/
structure TimeSegment where
  type : SegType
  name : String
  startTime : Nat
  endTime : Nat
  duration : Nat
deriving DecidableEq

/-- Accumulated token counters. -/
structure Tokens where
  prompt : Nat
  completion : Nat
  total : Nat
deriving DecidableEq

/-- One entry of the tool-call log returned to the caller. -/
structure ToolCallLog where
  name : String
  arguments : ArgMap
  startTime : Nat
  endTime : Nat
  duration : Nat
  result : JValue
deriving DecidableEq

/-- Instrumentation: one record per `executeTool` invocation actually
performed, with the arguments passed and the observed outcome. -/
structure ExecEntry where
  name : String
  mergedArgs : ArgMap
  success : Bool
  duration : Nat
deriving DecidableEq

/-- The mutable state of the conversation loop. -/
structure LoopState where
  clock : Nat
  content : String
  tokens : Tokens
  toolCalls : List ToolCallLog
  toolResults : List JValue
  messages : List Msg
  iterationCount : Nat
  modelTime : Nat
  toolsTime : Nat
  timeSegments : List TimeSegment
  current : ModelResponse
  modelCalls : Nat
  execLog : List ExecEntry
deriving DecidableEq

/-- `if (currentResponse.usage)` then add each field (`|| 0`). -/
def addUsage (t : Tokens) (u : Option Usage) : Tokens :=
  match u with
  | none => t
  | some u => ⟨t.prompt + u.prompt, t.completion + u.completion, t.total + u.total⟩

/-- `if (currentResponse.choices[0]?.message?.content) content = ...`:
the content is replaced only when the new content is present and truthy
(non-empty). -/
def newContent (old : String) (c : Option String) : String :=
  match c with
  | some s => if s == "" then old else s
  | none => old

/-- Label of the model segment recorded in iteration `m`. -/
def modelLabel (m : Nat) : String := s!"Model response (iteration {m})"

/-- Processing of one entry of `tool_calls` inside the loop body:
parse the arguments, resolve the tool by id from the caller-supplied tool
list (skip when unresolved), execute it on the spread-merged arguments,
and on success record the time segment, the result, the log entry and the
assistant/tool message pair.  A parse failure or a failed execution leaves
everything but the clock and the instrumentation log unchanged. -/
def processToolCall (env : Env) (tools : List ToolDescr) (st : LoopState)
    (tc : ToolCallReq) : LoopState :=
  match tc.parsedArguments with
  | none => st
  | some toolArgs =>
    match tools.find? (fun t => t.id == tc.name) with
    | none => st
    | some tool =>
      let mergedArgs := spreadMerge tool.params toolArgs
      let r := env.execTool tc.name mergedArgs
      let startT := st.clock
      let endT := st.clock + r.duration
      let st1 := { st with
        clock := endT,
        execLog := st.execLog ++ [⟨tc.name, mergedArgs, r.success, r.duration⟩] }
      if !r.success then st1
      else { st1 with
        timeSegments := st1.timeSegments ++
          [⟨SegType.tool, tc.name, startT, endT, r.duration⟩],
        toolResults := st1.toolResults ++ [r.output],
        toolCalls := st1.toolCalls ++
          [⟨tc.name, toolArgs, startT, endT, r.duration, r.output⟩],
        messages := st1.messages ++
          [Msg.assistantToolCall tc.id tc.name tc.rawArguments,
           Msg.toolResult tc.id r.output] }

/-- The `for (const toolCall of toolCallsInResponse)` loop. -/
def processCalls (env : Env) (tools : List ToolDescr) (st : LoopState)
    (calls : List ToolCallReq) : LoopState :=
  calls.foldl (processToolCall env tools) st

/-- The bookkeeping after one further model call: advance the clock,
record the model segment, accumulate model time and usage, update the
content, bump the iteration counter. -/
def stepModel (st : LoopState) (resp : ModelResponse) : LoopState :=
  { st with
    clock := st.clock + resp.duration,
    modelCalls := st.modelCalls + 1,
    timeSegments := st.timeSegments ++
      [⟨SegType.model, modelLabel (st.iterationCount + 1), st.clock,
        st.clock + resp.duration, resp.duration⟩],
    modelTime := st.modelTime + resp.duration,
    content := newContent st.content resp.content,
    tokens := addUsage st.tokens resp.usage,
    iterationCount := st.iterationCount + 1,
    current := resp }

/-- `const MAX_ITERATIONS = 10`. -/
def MAX_ITERATIONS : Nat := 10

/-- Processing of the current response's tool calls followed by the
accounting of the batch's wall-clock span into `toolsTime`
(`toolsTime += Date.now() - toolsStartTime`). -/
def afterBatch (env : Env) (tools : List ToolDescr) (st : LoopState) : LoopState :=
  let stT := processCalls env tools st st.current.toolCalls
  { stT with toolsTime := stT.toolsTime + (stT.clock - st.clock) }

/-- The `while (iterationCount < MAX_ITERATIONS)` loop, run with fuel
`MAX_ITERATIONS - iterationCount`: exit when the fuel is spent or the
current response requests no tool invocations; otherwise process the tool
calls, account the batch's wall-clock span into `toolsTime`, and make the
next model call (whose failure aborts the loop with the error). -/
def runLoop (env : Env) (tools : List ToolDescr) :
    Nat → LoopState → Option String × LoopState
  | 0, st => (none, st)
  | fuel + 1, st =>
    if st.current.toolCalls.isEmpty then (none, st)
    else
      match env.respond (afterBatch env tools st).modelCalls with
      | .error e =>
        (some e, { afterBatch env tools st with
          modelCalls := (afterBatch env tools st).modelCalls + 1 })
      | .ok resp => runLoop env tools fuel (stepModel (afterBatch env tools st) resp)

/-- Error taxonomy of `executeRequest`. -/
inductive PErr where
  | authError
  | providerError (msg : String)
deriving DecidableEq

/-- The timing summary returned to the caller. -/
structure Timing where
  startTime : Nat
  endTime : Nat
  duration : Nat
  modelTime : Nat
  toolsTime : Nat
  firstResponseTime : Nat
  iterations : Nat
  timeSegments : List TimeSegment
deriving DecidableEq

/-- The normalized provider response returned by `executeRequest`. -/
structure ProviderResponse where
  content : String
  model : Option String
  tokens : Tokens
  toolCalls : Option (List ToolCallLog)
  toolResults : Option (List JValue)
  timing : Timing
deriving DecidableEq

/-- Instrumentation of one whole `executeRequest` run: how many model
calls were issued, every `executeTool` invocation, and the final
transcript. -/
structure Trace where
  modelCalls : Nat
  execLog : List ExecEntry
  messages : List Msg
deriving DecidableEq

/-- Result of a run together with its trace. -/
structure ExecOutcome where
  result : Except PErr ProviderResponse
  trace : Trace

/-- Initial transcript: system prompt (if present), then the context as a
user message (if present), then the caller-supplied messages. -/
def initMessages (req : ProviderRequest) : List Msg :=
  (match req.systemPrompt with
   | some s => [Msg.system s]
   | none => [])
  ++ (match req.context with
      | some c => [Msg.user c]
      | none => [])
  ++ req.messages

/-- Loop state right after the initial model call: the clock has advanced
by its duration, one `model` segment named "Initial response" is recorded,
the usage is accumulated into fresh counters. -/
def initState (resp0 : ModelResponse) (msgs : List Msg) : LoopState :=
  { clock := resp0.duration,
    content := resp0.content.getD "",
    tokens := addUsage ⟨0, 0, 0⟩ resp0.usage,
    toolCalls := [],
    toolResults := [],
    messages := msgs,
    iterationCount := 0,
    modelTime := resp0.duration,
    toolsTime := 0,
    timeSegments := [⟨SegType.model, "Initial response", 0, resp0.duration,
      resp0.duration⟩],
    current := resp0,
    modelCalls := 1,
    execLog := [] }

/-- Assembly of the returned `ProviderResponse` from the final state. -/
def finishResp (req : ProviderRequest) (resp0 : ModelResponse)
    (st : LoopState) : ProviderResponse :=
  { content := st.content,
    model := req.model,
    tokens := st.tokens,
    toolCalls := if st.toolCalls.isEmpty then none else some st.toolCalls,
    toolResults := if st.toolResults.isEmpty then none else some st.toolResults,
    timing := {
      startTime := 0,
      endTime := st.clock,
      duration := st.clock,
      modelTime := st.modelTime,
      toolsTime := st.toolsTime,
      firstResponseTime := resp0.duration,
      iterations := st.iterationCount + 1,
      timeSegments := st.timeSegments } }

/-- `executeRequest` of the OpenAI provider: reject a missing API key
before any call, otherwise make the initial model call and drive the
conversation loop; a failing model call aborts with a provider error. -/
def executeRequest (env : Env) (req : ProviderRequest) : ExecOutcome :=
  match req.apiKey with
  | none => ⟨.error .authError, ⟨0, [], []⟩⟩
  | some _ =>
    match env.respond 0 with
    | .error e => ⟨.error (.providerError e), ⟨1, [], initMessages req⟩⟩
    | .ok resp0 =>
      let out := runLoop env req.tools MAX_ITERATIONS
        (initState resp0 (initMessages req))
      match out.1 with
      | some e =>
        ⟨.error (.providerError e), ⟨out.2.modelCalls, out.2.execLog, out.2.messages⟩⟩
      | none =>
        ⟨.ok (finishResp req resp0 out.2),
         ⟨out.2.modelCalls, out.2.execLog, out.2.messages⟩⟩

/-! ## Batch runner (`handleMultipleRuns` in control-bar.tsx) -/

/-- Terminal outcome of a batch. -/
inductive Outcome where
  | completed
  | cancelled
  | error
deriving DecidableEq

/-- External world of the batch runner: the value the cooperative
cancellation flag (`cancelFlagRef.current`) holds when it is read before
run `i`, the outcome of `handleRunWorkflow` for run `i` (`.error` models a
thrown run), and the outcome of the statistics side call. -/
structure BatchEnv where
  cancelRead : Nat → Bool
  runOutcome : Nat → Except String Unit
  statsResult : Except String Unit

/-- Observable outcome of the `for` loop: final `completedRuns`,
whether cancellation was observed, the error of a failed run (if any),
the indices of the runs that were started, and the indices at which the
cancellation flag was read. -/
structure BatchLoopOut where
  completed : Nat
  wasCancelled : Bool
  err : Option String
  executed : List Nat
  checks : List Nat
deriving DecidableEq

/-- The `for (let i = 0; i < runCount; i++)` loop: before each run the
cancellation flag is read (breaking with `wasCancelled` when set), then
the run executes; a thrown run aborts the loop with its error, a finished
run sets `completedRuns` to `i + 1`. -/
def batchLoop (env : BatchEnv) :
    Nat → Nat → List Nat → List Nat → Nat → BatchLoopOut
  | _, completed, executed, checks, 0 => ⟨completed, false, none, executed, checks⟩
  | i, completed, executed, checks, remaining + 1 =>
    if env.cancelRead i then ⟨completed, true, none, executed, checks ++ [i]⟩
    else
      match env.runOutcome i with
      | .error e => ⟨completed, false, some e, executed ++ [i], checks ++ [i]⟩
      | .ok _ => batchLoop env (i + 1) (i + 1) (executed ++ [i]) (checks ++ [i]) remaining

/-- JavaScript truthiness of `activeWorkflowId`: present and non-empty. -/
def truthyId (id : Option String) : Bool :=
  match id with
  | some s => !(s == "")
  | none => false

/-- Observable result of one batch. -/
structure BatchResult where
  completedRuns : Nat
  outcome : Outcome
  statsCallIssued : Bool
  executed : List Nat
  checks : List Nat
deriving DecidableEq

/-- `handleMultipleRuns`: guard out a zero run count, run the loop, issue
the statistics side call only when the loop neither errored nor observed
cancellation and a truthy workflow id is at hand (its own failure is
swallowed by `.catch` and affects nothing), and report exactly one
terminal outcome: `cancelled` when cancellation was observed, else
`error` when a run threw, else `completed`. -/
def handleMultipleRuns (env : BatchEnv) (runCount : Nat)
    (activeWorkflowId : Option String) : Option BatchResult :=
  if runCount = 0 then none
  else
    let L := batchLoop env 0 0 [] [] runCount
    let statsCallIssued := L.err.isNone && !L.wasCancelled && truthyId activeWorkflowId
    let outcome :=
      if L.wasCancelled then Outcome.cancelled
      else if L.err.isSome then Outcome.error
      else Outcome.completed
    some ⟨L.completed, outcome, statsCallIssued, L.executed, L.checks⟩

/-! ## Derived quantities used to state the claims -/

/-- Sum of the durations of the recorded segments of kind `model`. -/
def modelSegSum (l : List TimeSegment) : Nat :=
  ((l.filter fun s => s.type == SegType.model).map fun s => s.duration).sum

/-- Sum of the durations of the recorded segments of kind `tool`. -/
def toolSegSum (l : List TimeSegment) : Nat :=
  ((l.filter fun s => s.type == SegType.tool).map fun s => s.duration).sum

/-- Total duration of every tool execution actually performed. -/
def execDurSum (l : List ExecEntry) : Nat :=
  (l.map fun e => e.duration).sum

/-- Total duration of the successful tool executions. -/
def okDurSum (l : List ExecEntry) : Nat :=
  ((l.filter fun e => e.success).map fun e => e.duration).sum

/-- The usage of model call `n`, as token counters (absent usage and
failed calls count as zero, as in the source's `|| 0`). -/
def tokensOfCall (env : Env) (n : Nat) : Tokens :=
  match env.respond n with
  | .ok r =>
    match r.usage with
    | some u => ⟨u.prompt, u.completion, u.total⟩
    | none => ⟨0, 0, 0⟩
  | .error _ => ⟨0, 0, 0⟩

/-- Componentwise sum of token counters. -/
def addTokens (a b : Tokens) : Tokens :=
  ⟨a.prompt + b.prompt, a.completion + b.completion, a.total + b.total⟩

/-- Sum of the usage reported by the provider over the first `n` model
calls. -/
def usageSum (env : Env) : Nat → Tokens
  | 0 => ⟨0, 0, 0⟩
  | n + 1 => addTokens (usageSum env n) (tokensOfCall env n)

/-- Componentwise order on token counters. -/
def Tokens.le (a b : Tokens) : Prop :=
  a.prompt ≤ b.prompt ∧ a.completion ≤ b.completion ∧ a.total ≤ b.total

/-- The messages that processing one `tool_calls` entry appends to the
transcript: the assistant declaration / tool result pair when the call
parses, resolves and succeeds, and nothing otherwise.  (Refinement
definition, following the spec's description of step 3b.) -/
def tcMsgs (env : Env) (tools : List ToolDescr) (tc : ToolCallReq) : List Msg :=
  match tc.parsedArguments with
  | none => []
  | some toolArgs =>
    match tools.find? (fun t => t.id == tc.name) with
    | none => []
    | some tool =>
      let r := env.execTool tc.name (spreadMerge tool.params toolArgs)
      if !r.success then []
      else [Msg.assistantToolCall tc.id tc.name tc.rawArguments,
            Msg.toolResult tc.id r.output]

/-- The messages one whole iteration's batch of tool calls appends. -/
def toolBatchMsgs (env : Env) (tools : List ToolDescr)
    (calls : List ToolCallReq) : List Msg :=
  (calls.map (tcMsgs env tools)).flatten

/-- Reported `modelTime`, when the run returned normally. -/
def reportedModelTime (o : ExecOutcome) : Option Nat :=
  o.result.toOption.map fun r => r.timing.modelTime

/-- Reported `toolsTime`, when the run returned normally. -/
def reportedToolsTime (o : ExecOutcome) : Option Nat :=
  o.result.toOption.map fun r => r.timing.toolsTime

/-- Sum of the reported `model` segments, when the run returned normally. -/
def reportedModelSegSum (o : ExecOutcome) : Option Nat :=
  o.result.toOption.map fun r => modelSegSum r.timing.timeSegments

/-- Sum of the reported `tool` segments, when the run returned normally. -/
def reportedToolSegSum (o : ExecOutcome) : Option Nat :=
  o.result.toOption.map fun r => toolSegSum r.timing.timeSegments

/-- Lift a number to the success of a run: `some n` when the run returned
normally, `none` otherwise. -/
def ifOk (o : ExecOutcome) (n : Nat) : Option Nat :=
  o.result.toOption.map fun _ => n

/-- The returned response, with a fallback for the error case. -/
def respOf (o : ExecOutcome) (d : ProviderResponse) : ProviderResponse :=
  match o.result with
  | .ok r => r
  | .error _ => d

/-- The timing invariant the loop maintains: `modelTime` is the sum of the
`model` segments, `toolsTime` the total duration of every tool execution
performed, and the `tool` segments sum to the duration of the successful
ones. -/
def timeInv (st : LoopState) : Prop :=
  st.modelTime = modelSegSum st.timeSegments ∧
  st.toolsTime = execDurSum st.execLog ∧
  toolSegSum st.timeSegments = okDurSum st.execLog

/-! ## Concrete instances used as counterexamples and witnesses -/

/-- A placeholder response used as the fallback of `respOf`. -/
def dummyResp : ProviderResponse :=
  ⟨"", none, ⟨0, 0, 0⟩, none, none, ⟨0, 0, 0, 0, 0, 0, 0, []⟩⟩

/-- A response that always requests one resolvable tool invocation. -/
def c1resp : ModelResponse :=
  ⟨some "hi", [⟨"call-1", "echo", "", some []⟩], some ⟨1, 1, 2⟩, 5⟩

/-- A provider that requests a tool invocation on every call. -/
def c1env : Env :=
  ⟨fun _ => .ok c1resp, fun _ _ => ⟨true, .null, 3⟩⟩

/-- A request carrying the tool the provider keeps invoking. -/
def c1req : ProviderRequest :=
  ⟨some "key", some "gpt-4o", some "sys", none, [], [⟨"echo", "echo tool", []⟩]⟩

/-- First response: one resolvable tool invocation. -/
def c2resp0 : ModelResponse :=
  ⟨some "a", [⟨"call-1", "slow", "", some []⟩], some ⟨1, 1, 2⟩, 7⟩

/-- Second response: no tool invocations, ending the loop. -/
def c2resp1 : ModelResponse := ⟨some "b", [], some ⟨1, 1, 2⟩, 4⟩

/-- A provider whose single requested tool execution fails after 5 time
units. -/
def c2env : Env :=
  ⟨fun i => if i = 0 then .ok c2resp0 else .ok c2resp1,
   fun _ _ => ⟨false, .null, 5⟩⟩

/-- The request for the failing-tool run. -/
def c2req : ProviderRequest :=
  ⟨some "key", none, none, none, [], [⟨"slow", "slow tool", []⟩]⟩

/-- First response: two resolvable tool invocations in one batch. -/
def c3resp0 : ModelResponse :=
  ⟨some "a", [⟨"c1", "t", "", some []⟩, ⟨"c2", "t", "", some []⟩], none, 1⟩

/-- Second response: no tool invocations. -/
def c3resp1 : ModelResponse := ⟨some "done", [], none, 1⟩

/-- A provider requesting two tool calls in its first response. -/
def c3env : Env :=
  ⟨fun i => if i = 0 then .ok c3resp0 else .ok c3resp1,
   fun _ _ => ⟨true, .str "out", 2⟩⟩

/-- The request for the two-tool-call run. -/
def c3req : ProviderRequest :=
  ⟨some "key", none, none, none, [], [⟨"t", "tool", []⟩]⟩

/-- A batch environment whose cancellation flag reads true from the third
check on, with every run succeeding. -/
def c5Env : BatchEnv :=
  ⟨fun i => decide (2 ≤ i), fun _ => .ok (), .ok ()⟩

/-- A batch environment with no cancellation and only successful runs. -/
def c4wEnv : BatchEnv :=
  ⟨fun _ => false, fun _ => .ok (), .ok ()⟩

/-- The result of a completed 2-run batch in `c4wEnv`. -/
def c4wRes : BatchResult :=
  ⟨2, Outcome.completed, true, [0, 1], [0, 1]⟩

/-- A request with no API key. -/
def c6req : ProviderRequest := ⟨none, some "gpt-4o", none, none, [], []⟩

/-- An environment whose calls would all fail, making any contact
observable. -/
def c6env : Env :=
  ⟨fun _ => .error "unused", fun _ _ => ⟨true, .null, 0⟩⟩

/-- A tool list that does not contain the invoked tool id. -/
def c7tools : List ToolDescr := [⟨"other", "another tool", []⟩]

/-- An invocation of a tool id absent from the tool list. -/
def c7call : ToolCallReq := ⟨"call-9", "unknown", "", some []⟩

/-- A mid-loop state used to exercise the skip. -/
def c7state : LoopState :=
  ⟨12, "so far", ⟨3, 4, 7⟩, [], [], [Msg.user "ctx"], 1, 9, 0, [], ⟨none, [], none, 0⟩, 2, []⟩

/-- Default parameters of the resolved tool, one key shared with the
invocation payload. -/
def c8tool : ToolDescr :=
  ⟨"calc", "calculator", [("a", .num 1), ("b", .str "x")]⟩

/-- The invocation's parsed arguments, overriding key `a`. -/
def c8args : ArgMap := [("a", .num 2), ("c", .bool true)]

/-- The invocation carrying `c8args`. -/
def c8call : ToolCallReq := ⟨"call-3", "calc", "raw", some c8args⟩

/-- The tool list resolving `calc`. -/
def c8tools : List ToolDescr := [c8tool]

/-- An environment recording the executed tool call. -/
def c8env : Env :=
  ⟨fun _ => .error "unused", fun _ _ => ⟨true, .num 42, 6⟩⟩

/-! ## Helper lemmas: sums over segment and log lists -/

theorem modelSegSum_append (l l' : List TimeSegment) :
    modelSegSum (l ++ l') = modelSegSum l + modelSegSum l' := by
  simp [modelSegSum, List.filter_append]

theorem toolSegSum_append (l l' : List TimeSegment) :
    toolSegSum (l ++ l') = toolSegSum l + toolSegSum l' := by
  simp [toolSegSum, List.filter_append]

theorem execDurSum_append (l l' : List ExecEntry) :
    execDurSum (l ++ l') = execDurSum l + execDurSum l' := by
  simp [execDurSum]

theorem okDurSum_append (l l' : List ExecEntry) :
    okDurSum (l ++ l') = okDurSum l + okDurSum l' := by
  simp [okDurSum, List.filter_append]

/-! ## Helper lemmas: lookup over a JavaScript spread -/

theorem lookup_append_eq (l₁ l₂ : ArgMap) (k : String) :
    (l₁ ++ l₂).lookup k =
      (match l₁.lookup k with
       | some v => some v
       | none => l₂.lookup k) := by
  induction l₁ with
  | nil => simp [List.lookup]
  | cons p t ih =>
    obtain ⟨k', v'⟩ := p
    by_cases hbeq : k == k' <;> simp [List.lookup, hbeq, ih]

theorem lookup_override (b o : ArgMap) (k : String) :
    (b.map (fun p =>
      match o.lookup p.1 with
      | some v => (p.1, v)
      | none => p)).lookup k =
      (match b.lookup k with
       | none => none
       | some vb => some ((o.lookup k).getD vb)) := by
  induction b with
  | nil => simp [List.lookup]
  | cons p t ih =>
    obtain ⟨k', v'⟩ := p
    by_cases hbeq : k == k'
    · have hk : k = k' := eq_of_beq hbeq
      cases ho : o.lookup k' <;>
        simp [List.lookup, hbeq, hk, ho]
    · cases ho : o.lookup k' <;>
        simp [List.lookup, hbeq, ih, ho]

theorem lookup_filter_base (b o : ArgMap) (k : String) (h : b.lookup k = none) :
    (o.filter (fun p => (b.lookup p.1).isNone)).lookup k = o.lookup k := by
  induction o with
  | nil => simp
  | cons p t ih =>
    obtain ⟨k'', w⟩ := p
    by_cases hbeq : k == k''
    · have hk : k = k'' := eq_of_beq hbeq
      have hb : (b.lookup k'').isNone = true := by
        rw [← hk, h]; rfl
      simp [List.filter, hb, List.lookup, hbeq]
    · cases hkeep : (b.lookup k'').isNone <;>
        simp [List.filter, hkeep, List.lookup, hbeq, ih]

/-- Lookup over a JavaScript spread: the overlay's binding wins on a key
collision, the base's binding is used otherwise. -/
theorem lookup_spreadMerge (b o : ArgMap) (k : String) :
    (spreadMerge b o).lookup k =
      (match o.lookup k with
       | some v => some v
       | none => b.lookup k) := by
  rw [spreadMerge, lookup_append_eq, lookup_override]
  cases hb : b.lookup k with
  | none =>
    rw [lookup_filter_base b o k hb]
    cases ho : o.lookup k <;> simp [hb]
  | some vb =>
    cases ho : o.lookup k <;> simp [hb, ho]

/-! ## Helper lemmas: one tool call -/

theorem ptc_const (env : Env) (tools : List ToolDescr) (st : LoopState)
    (tc : ToolCallReq) :
    (processToolCall env tools st tc).modelTime = st.modelTime ∧
    (processToolCall env tools st tc).iterationCount = st.iterationCount ∧
    (processToolCall env tools st tc).modelCalls = st.modelCalls ∧
    (processToolCall env tools st tc).current = st.current ∧
    (processToolCall env tools st tc).tokens = st.tokens ∧
    (processToolCall env tools st tc).toolsTime = st.toolsTime ∧
    (processToolCall env tools st tc).content = st.content := by
  obtain ⟨tid, tname, traw, tpa⟩ := tc
  cases tpa with
  | none => simp [processToolCall]
  | some args =>
    simp only [processToolCall]
    cases hf : tools.find? (fun t => t.id == tname) with
    | none => simp
    | some tool =>
      cases hs : (env.execTool tname (spreadMerge tool.params args)).success <;>
        simp [hs]

theorem ptc_clock_le (env : Env) (tools : List ToolDescr) (st : LoopState)
    (tc : ToolCallReq) :
    st.clock ≤ (processToolCall env tools st tc).clock := by
  obtain ⟨tid, tname, traw, tpa⟩ := tc
  cases tpa with
  | none => simp [processToolCall]
  | some args =>
    simp only [processToolCall]
    cases hf : tools.find? (fun t => t.id == tname) with
    | none => simp
    | some tool =>
      cases hs : (env.execTool tname (spreadMerge tool.params args)).success <;>
        simp [hs]

theorem ptc_time (env : Env) (tools : List ToolDescr) (st : LoopState)
    (tc : ToolCallReq) :
    (processToolCall env tools st tc).clock + execDurSum st.execLog
      = st.clock + execDurSum (processToolCall env tools st tc).execLog ∧
    toolSegSum (processToolCall env tools st tc).timeSegments + okDurSum st.execLog
      = toolSegSum st.timeSegments + okDurSum (processToolCall env tools st tc).execLog ∧
    modelSegSum (processToolCall env tools st tc).timeSegments
      = modelSegSum st.timeSegments := by
  obtain ⟨tid, tname, traw, tpa⟩ := tc
  cases tpa with
  | none => simp [processToolCall]
  | some args =>
    simp only [processToolCall]
    cases hf : tools.find? (fun t => t.id == tname) with
    | none => simp
    | some tool =>
      cases hs : (env.execTool tname (spreadMerge tool.params args)).success <;>
        simp [hs, execDurSum_append, okDurSum_append, toolSegSum_append,
          modelSegSum_append, execDurSum, okDurSum, toolSegSum, modelSegSum] <;>
        omega

theorem ptc_messages (env : Env) (tools : List ToolDescr) (st : LoopState)
    (tc : ToolCallReq) :
    (processToolCall env tools st tc).messages
      = st.messages ++ tcMsgs env tools tc := by
  obtain ⟨tid, tname, traw, tpa⟩ := tc
  cases tpa with
  | none => simp [processToolCall, tcMsgs]
  | some args =>
    simp only [processToolCall, tcMsgs]
    cases hf : tools.find? (fun t => t.id == tname) with
    | none => simp
    | some tool =>
      cases hs : (env.execTool tname (spreadMerge tool.params args)).success <;>
        simp [hs]

/-! ## Helper lemmas: one iteration's batch of tool calls -/

theorem pcs_const (env : Env) (tools : List ToolDescr) (st : LoopState)
    (calls : List ToolCallReq) :
    (processCalls env tools st calls).modelTime = st.modelTime ∧
    (processCalls env tools st calls).iterationCount = st.iterationCount ∧
    (processCalls env tools st calls).modelCalls = st.modelCalls ∧
    (processCalls env tools st calls).current = st.current ∧
    (processCalls env tools st calls).tokens = st.tokens ∧
    (processCalls env tools st calls).toolsTime = st.toolsTime ∧
    (processCalls env tools st calls).content = st.content := by
  induction calls generalizing st with
  | nil => simp [processCalls]
  | cons tc rest ih =>
    rcases ih (processToolCall env tools st tc) with ⟨i1, i2, i3, i4, i5, i6, i7⟩
    rcases ptc_const env tools st tc with ⟨h1, h2, h3, h4, h5, h6, h7⟩
    simp only [processCalls, List.foldl_cons] at *
    exact ⟨i1.trans h1, i2.trans h2, i3.trans h3, i4.trans h4, i5.trans h5,
      i6.trans h6, i7.trans h7⟩

theorem pcs_clock_le (env : Env) (tools : List ToolDescr) (st : LoopState)
    (calls : List ToolCallReq) :
    st.clock ≤ (processCalls env tools st calls).clock := by
  induction calls generalizing st with
  | nil => simp [processCalls]
  | cons tc rest ih =>
    have h := ptc_clock_le env tools st tc
    have i := ih (processToolCall env tools st tc)
    simp only [processCalls, List.foldl_cons] at *
    exact h.trans i

theorem pcs_time (env : Env) (tools : List ToolDescr) (st : LoopState)
    (calls : List ToolCallReq) :
    (processCalls env tools st calls).clock + execDurSum st.execLog
      = st.clock + execDurSum (processCalls env tools st calls).execLog ∧
    toolSegSum (processCalls env tools st calls).timeSegments + okDurSum st.execLog
      = toolSegSum st.timeSegments + okDurSum (processCalls env tools st calls).execLog ∧
    modelSegSum (processCalls env tools st calls).timeSegments
      = modelSegSum st.timeSegments := by
  induction calls generalizing st with
  | nil => simp [processCalls]
  | cons tc rest ih =>
    rcases ih (processToolCall env tools st tc) with ⟨i1, i2, i3⟩
    rcases ptc_time env tools st tc with ⟨h1, h2, h3⟩
    simp only [processCalls, List.foldl_cons] at *
    refine ⟨by omega, by omega, i3.trans h3⟩

theorem pcs_messages (env : Env) (tools : List ToolDescr) (st : LoopState)
    (calls : List ToolCallReq) :
    (processCalls env tools st calls).messages
      = st.messages ++ toolBatchMsgs env tools calls := by
  induction calls generalizing st with
  | nil => simp [processCalls, toolBatchMsgs]
  | cons tc rest ih =>
    have i := ih (processToolCall env tools st tc)
    simp only [processCalls, List.foldl_cons] at *
    rw [i, ptc_messages, toolBatchMsgs]
    simp [toolBatchMsgs]

/-! ## Helper lemmas: the conversation loop -/

theorem ab_const (env : Env) (tools : List ToolDescr) (st : LoopState) :
    (afterBatch env tools st).iterationCount = st.iterationCount ∧
    (afterBatch env tools st).modelCalls = st.modelCalls ∧
    (afterBatch env tools st).current = st.current ∧
    (afterBatch env tools st).tokens = st.tokens ∧
    (afterBatch env tools st).modelTime = st.modelTime := by
  rcases pcs_const env tools st st.current.toolCalls with ⟨h1, h2, h3, h4, h5, h6, h7⟩
  simp only [afterBatch]
  exact ⟨h2, h3, h4, h5, h1⟩

theorem ab_timeInv (env : Env) (tools : List ToolDescr) (st : LoopState)
    (h : timeInv st) : timeInv (afterBatch env tools st) := by
  rcases h with ⟨h1, h2, h3⟩
  rcases pcs_time env tools st st.current.toolCalls with ⟨t1, t2, t3⟩
  rcases pcs_const env tools st st.current.toolCalls with ⟨c1, _, _, _, _, c6, _⟩
  have hle := pcs_clock_le env tools st st.current.toolCalls
  refine ⟨?_, ?_, ?_⟩ <;> simp only [afterBatch] <;> omega

theorem modelSegSum_model_single (nm : String) (a b d : Nat) :
    modelSegSum [⟨SegType.model, nm, a, b, d⟩] = d := by
  simp [modelSegSum]

theorem toolSegSum_model_single (nm : String) (a b d : Nat) :
    toolSegSum [⟨SegType.model, nm, a, b, d⟩] = 0 := by
  simp [toolSegSum]

theorem sm_timeInv (st : LoopState) (resp : ModelResponse)
    (h : timeInv st) : timeInv (stepModel st resp) := by
  rcases h with ⟨h1, h2, h3⟩
  refine ⟨?_, ?_, ?_⟩ <;>
    simp only [stepModel, modelSegSum_append, toolSegSum_append,
      modelSegSum_model_single, toolSegSum_model_single] <;>
    omega

theorem rl_timeInv (env : Env) (tools : List ToolDescr) :
    ∀ (fuel : Nat) (st : LoopState), timeInv st →
      timeInv (runLoop env tools fuel st).2 := by
  intro fuel
  induction fuel with
  | zero => exact fun st h => h
  | succ fuel ih =>
    intro st h
    rw [runLoop]
    by_cases hemp : st.current.toolCalls.isEmpty
    · simpa [hemp] using h
    · simp only [hemp, if_false]
      have hab := ab_timeInv env tools st h
      cases hr : env.respond (afterBatch env tools st).modelCalls with
      | error e =>
        rcases hab with ⟨a1, a2, a3⟩
        exact ⟨a1, a2, a3⟩
      | ok resp => exact ih _ (sm_timeInv _ resp hab)

theorem rl_iter (env : Env) (tools : List ToolDescr) :
    ∀ (fuel : Nat) (st : LoopState),
      st.modelCalls = st.iterationCount + 1 →
      (runLoop env tools fuel st).1 = none →
      (runLoop env tools fuel st).2.modelCalls
        = (runLoop env tools fuel st).2.iterationCount + 1 := by
  intro fuel
  induction fuel with
  | zero => exact fun st h _ => h
  | succ fuel ih =>
    intro st h hok
    rw [runLoop] at *
    by_cases hemp : st.current.toolCalls.isEmpty
    · simpa [hemp] using h
    · simp only [hemp, if_false] at hok ⊢
      rcases ab_const env tools st with ⟨a1, a2, _, _, _⟩
      cases hr : env.respond (afterBatch env tools st).modelCalls with
      | error e => rw [hr] at hok; simp at hok
      | ok resp =>
        rw [hr] at hok
        exact ih _ (by simp only [stepModel]; omega) hok

theorem addUsage_eq_addTokens (t : Tokens) (u : Option Usage) :
    addUsage t u = addTokens t
      (match u with
       | some u => ⟨u.prompt, u.completion, u.total⟩
       | none => ⟨0, 0, 0⟩) := by
  cases t
  cases u <;> simp [addUsage, addTokens]

theorem rl_tokens (env : Env) (tools : List ToolDescr) :
    ∀ (fuel : Nat) (st : LoopState),
      st.tokens = usageSum env st.modelCalls →
      (runLoop env tools fuel st).1 = none →
      (runLoop env tools fuel st).2.tokens
        = usageSum env (runLoop env tools fuel st).2.modelCalls := by
  intro fuel
  induction fuel with
  | zero => exact fun st h _ => h
  | succ fuel ih =>
    intro st h hok
    rw [runLoop] at *
    by_cases hemp : st.current.toolCalls.isEmpty
    · simpa [hemp] using h
    · simp only [hemp, if_false] at hok ⊢
      rcases ab_const env tools st with ⟨_, a2, _, a4, _⟩
      cases hr : env.respond (afterBatch env tools st).modelCalls with
      | error e => rw [hr] at hok; simp at hok
      | ok resp =>
        rw [hr] at hok
        refine ih _ ?_ hok
        have htc : tokensOfCall env (afterBatch env tools st).modelCalls
            = (match resp.usage with
               | some u => (⟨u.prompt, u.completion, u.total⟩ : Tokens)
               | none => ⟨0, 0, 0⟩) := by
          simp only [tokensOfCall, hr]
        rw [a2] at htc
        show (stepModel (afterBatch env tools st) resp).tokens
          = usageSum env (stepModel (afterBatch env tools st) resp).modelCalls
        simp only [stepModel, addUsage_eq_addTokens, a2, a4, h, usageSum, htc]

/-- Componentwise monotonicity of the usage sums. -/
theorem usageSum_le (env : Env) (m n : Nat) (h : m ≤ n) :
    Tokens.le (usageSum env m) (usageSum env n) := by
  induction n with
  | zero =>
    have : m = 0 := Nat.le_zero.mp h
    subst this
    exact ⟨le_rfl, le_rfl, le_rfl⟩
  | succ n ih =>
    rcases Nat.lt_or_ge m (n + 1) with hlt | hge
    · have hm : m ≤ n := Nat.lt_succ_iff.mp hlt
      rcases ih hm with ⟨l1, l2, l3⟩
      refine ⟨?_, ?_, ?_⟩ <;>
        simp only [usageSum, addTokens] <;> omega
    · have : m = n + 1 := Nat.le_antisymm h hge
      subst this
      exact ⟨le_rfl, le_rfl, le_rfl⟩

theorem rl_all_tools (env : Env) (tools : List ToolDescr)
    (hall : ∀ i, ∃ r, env.respond i = .ok r ∧ r.toolCalls ≠ []) :
    ∀ (fuel : Nat) (st : LoopState), st.current.toolCalls ≠ [] →
      (runLoop env tools fuel st).1 = none ∧
      (runLoop env tools fuel st).2.modelCalls = st.modelCalls + fuel := by
  intro fuel
  induction fuel with
  | zero => exact fun st _ => ⟨rfl, rfl⟩
  | succ fuel ih =>
    intro st hne
    rw [runLoop]
    have hemp : st.current.toolCalls.isEmpty = false := by
      cases hcs : st.current.toolCalls with
      | nil => exact absurd hcs hne
      | cons a t => simp [hcs]
    simp only [hemp, if_false]
    rcases hall (afterBatch env tools st).modelCalls with ⟨r, hr, hrne⟩
    rw [hr]
    rcases ab_const env tools st with ⟨_, a2, _, _, _⟩
    have hcur : (stepModel (afterBatch env tools st) r).current.toolCalls ≠ [] := hrne
    rcases ih (stepModel (afterBatch env tools st) r) hcur with ⟨i1, i2⟩
    refine ⟨i1, ?_⟩
    show (runLoop env tools fuel (stepModel (afterBatch env tools st) r)).2.modelCalls
      = st.modelCalls + (fuel + 1)
    rw [i2]
    simp only [stepModel]
    omega

/-- A response with no requested tool invocations exits the loop at
once. -/
theorem rl_noTools (env : Env) (tools : List ToolDescr) (st : LoopState)
    (h : st.current.toolCalls = []) :
    ∀ fuel, runLoop env tools fuel st = (none, st) := by
  intro fuel
  cases fuel with
  | zero => rfl
  | succ fuel => rw [runLoop]; simp [h]

/-! ## Helper lemmas: the batch runner -/

theorem range_shift_map (i m : Nat) :
    (List.range (m + 1)).map (fun j => i + j)
      = i :: (List.range m).map (fun j => (i + 1) + j) := by
  rw [List.range_succ_eq_map]
  simp only [List.map_cons, List.map_map, Nat.add_zero]
  refine congrArg _ ?_
  apply List.map_congr_left
  intro a _
  simp [Function.comp]
  omega

theorem batchLoop_stats_irrel (c : Nat → Bool) (ro : Nat → Except String Unit)
    (s s' : Except String Unit) :
    ∀ (rem i comp : Nat) (ex ch : List Nat),
      batchLoop ⟨c, ro, s⟩ i comp ex ch rem = batchLoop ⟨c, ro, s'⟩ i comp ex ch rem := by
  intro rem
  induction rem with
  | zero => intro i comp ex ch; rfl
  | succ rem ih =>
    intro i comp ex ch
    rw [batchLoop, batchLoop]
    cases hc : c i with
    | true => simp [hc]
    | false =>
      simp only [hc]
      cases hro : ro i with
      | error e => simp [hro]
      | ok u => simp only [hro]; exact ih (i + 1) (i + 1) (ex ++ [i]) (ch ++ [i])

theorem batchLoop_cancel (env : BatchEnv) :
    ∀ (m i rem : Nat) (ex ch : List Nat),
      (∀ j, j < m → env.cancelRead (i + j) = false ∧ env.runOutcome (i + j) = .ok ()) →
      env.cancelRead (i + m) = true →
      m < rem →
      batchLoop env i i ex ch rem
        = ⟨i + m, true, none,
           ex ++ (List.range m).map (fun j => i + j),
           ch ++ (List.range (m + 1)).map (fun j => i + j)⟩ := by
  intro m
  induction m with
  | zero =>
    intro i rem ex ch _ hc hlt
    cases rem with
    | zero => omega
    | succ r =>
      rw [batchLoop]
      have hc0 : env.cancelRead i = true := by simpa using hc
      simp [hc0, List.range_succ]
  | succ m ih =>
    intro i rem ex ch hok hc hlt
    cases rem with
    | zero => omega
    | succ r =>
      rw [batchLoop]
      have h0 := hok 0 (by omega)
      have hc0 : env.cancelRead i = false := by simpa using h0.1
      have hr0 : env.runOutcome i = .ok () := by simpa using h0.2
      rw [hc0, hr0]
      have hok2 : ∀ j, j < m →
          env.cancelRead ((i + 1) + j) = false ∧
          env.runOutcome ((i + 1) + j) = .ok () := by
        intro j hj
        have h := hok (j + 1) (by omega)
        have e : i + (j + 1) = (i + 1) + j := by omega
        rw [e] at h
        exact h
      have hc2 : env.cancelRead ((i + 1) + m) = true := by
        have e : i + (m + 1) = (i + 1) + m := by omega
        rw [e] at hc
        exact hc
      have ihh := ih (i + 1) r (ex ++ [i]) (ch ++ [i]) hok2 hc2 (by omega)
      show batchLoop env (i + 1) (i + 1) (ex ++ [i]) (ch ++ [i]) r = _
      rw [ihh, range_shift_map i m, range_shift_map i (m + 1)]
      have e1 : (i + 1) + m = i + (m + 1) := by omega
      simp [e1]

/-! ## Claims -/

/-- C5: for a batch of `n` runs with the cancellation flag set after run
`k` completes (`k < n`), the flag is read before each started run (checks
at indices 0..k), runs `k+1..n` never execute (only indices `0..k-1` are
started), `completedRuns` equals `k`, and the reported outcome is
`cancelled`, a value distinct from `error`. -/
theorem c5_cancellation_stops_batch (env : BatchEnv) (k n : Nat)
    (id : Option String) (hkn : k < n)
    (hok : ∀ j, j < k → env.cancelRead j = false ∧ env.runOutcome j = .ok ())
    (hc : env.cancelRead k = true) :
    handleMultipleRuns env n id
      = some ⟨k, Outcome.cancelled, false, List.range k, List.range (k + 1)⟩ ∧
    Outcome.cancelled ≠ Outcome.error := by
  have hn : ¬ n = 0 := by omega
  have hbl := batchLoop_cancel env k 0 n [] []
    (by intro j hj; simpa using hok j hj) (by simpa using hc) hkn
  refine ⟨?_, by simp⟩
  rw [handleMultipleRuns, if_neg hn]
  simp only [hbl]
  simp

/-- C5 witness: `n = 5`, cancellation observed at the check before run 2:
two runs complete, outcome is `cancelled`. -/
theorem c5_witness :
    handleMultipleRuns c5Env 5 (some "w")
      = some ⟨2, Outcome.cancelled, false, List.range 2, List.range 3⟩ ∧
    Outcome.cancelled ≠ Outcome.error :=
  c5_cancellation_stops_batch c5Env 2 5 (some "w") (by omega)
    (fun j hj => ⟨decide_eq_false (by omega), rfl⟩) (by decide)

/-- C6: a request with no API key fails with the authentication error and
performs zero model calls and zero tool executions (an empty trace). -/
theorem c6_auth_error_before_any_call (env : Env) (req : ProviderRequest)
    (h : req.apiKey = none) :
    executeRequest env req = ⟨.error .authError, ⟨0, [], []⟩⟩ := by
  simp [executeRequest, h]

/-- C6 witness: a concrete keyless request. -/
theorem c6_witness :
    c6req.apiKey = none ∧
    executeRequest c6env c6req = ⟨.error .authError, ⟨0, [], []⟩⟩ :=
  ⟨rfl, c6_auth_error_before_any_call c6env c6req rfl⟩

/-- C7: a requested invocation whose tool id does not resolve in the
caller-supplied tool list is skipped outright: the loop state — the
transcript, the result logs, the segments, the counters — is unchanged,
and (`processToolCall` being total) no error is raised. -/
theorem c7_unresolved_tool_skipped (env : Env) (tools : List ToolDescr)
    (st : LoopState) (tc : ToolCallReq)
    (h : tools.find? (fun t => t.id == tc.name) = none) :
    processToolCall env tools st tc = st := by
  obtain ⟨tid, tname, traw, tpa⟩ := tc
  cases tpa with
  | none => simp [processToolCall]
  | some args =>
    simp only [processToolCall]
    rw [h]

/-- C7 witness: invoking the unresolvable id `unknown` leaves the state
untouched. -/
theorem c7_witness :
    c7tools.find? (fun t => t.id == c7call.name) = none ∧
    processToolCall c6env c7tools c7state c7call = c7state :=
  ⟨rfl, c7_unresolved_tool_skipped c6env c7tools c7state c7call rfl⟩

/-- C8: a resolved invocation executes the tool on the spread-merge of the
tool's caller-supplied defaults (the base) with the invocation's parsed
payload (the overlay), as recorded in the execution log; on any key the
merged object yields the invocation's value when the payload binds the
key, and the default otherwise. -/
theorem c8_merged_arguments (env : Env) (tools : List ToolDescr)
    (st : LoopState) (tc : ToolCallReq) (args : ArgMap) (tool : ToolDescr)
    (k : String)
    (h1 : tc.parsedArguments = some args)
    (h2 : tools.find? (fun t => t.id == tc.name) = some tool) :
    (processToolCall env tools st tc).execLog
      = st.execLog ++ [⟨tc.name, spreadMerge tool.params args,
          (env.execTool tc.name (spreadMerge tool.params args)).success,
          (env.execTool tc.name (spreadMerge tool.params args)).duration⟩] ∧
    (spreadMerge tool.params args).lookup k
      = (match args.lookup k with
         | some v => some v
         | none => tool.params.lookup k) := by
  refine ⟨?_, lookup_spreadMerge tool.params args k⟩
  obtain ⟨tid, tname, traw, tpa⟩ := tc
  simp only at h1 h2 ⊢
  subst h1
  simp only [processToolCall]
  rw [h2]
  cases hs : (env.execTool tname (spreadMerge tool.params args)).success <;>
    simp [hs]

/-- C8 witness: defaults `a=1, b="x"` merged with payload `a=2, c=true`;
the execution log records the merge and key `a` resolves to the payload's
value. -/
theorem c8_witness :
    c8call.parsedArguments = some c8args ∧
    c8tools.find? (fun t => t.id == c8call.name) = some c8tool ∧
    ((processToolCall c8env c8tools c7state c8call).execLog
        = c7state.execLog ++ [⟨c8call.name, spreadMerge c8tool.params c8args,
            (c8env.execTool c8call.name (spreadMerge c8tool.params c8args)).success,
            (c8env.execTool c8call.name (spreadMerge c8tool.params c8args)).duration⟩] ∧
      (spreadMerge c8tool.params c8args).lookup "a"
        = (match c8args.lookup "a" with
           | some v => some v
           | none => c8tool.params.lookup "a")) :=
  ⟨rfl, rfl,
   c8_merged_arguments c8env c8tools c7state c8call c8args c8tool "a" rfl rfl⟩

/-- C4 counterexample: a batch of 5 runs cancelled after run 2 reports
outcome `cancelled`, yet the statistics side call is not issued — the
source guards it with `!wasCancelled` — contradicting the claim that the
side call is issued after a cancelled batch. -/
theorem c4_counterexample :
    handleMultipleRuns c5Env 5 (some "w")
      = some ⟨2, Outcome.cancelled, false, [0, 1], [0, 1, 2]⟩ ∧
    (handleMultipleRuns c5Env 5 (some "w")).map (fun r => r.statsCallIssued)
      = some false := by
  exact ⟨by decide, by decide⟩

/-- C4 (amended): the statistics side call is issued exactly after a batch
whose outcome is `completed` and whose workflow id is truthy — not after a
cancelled or errored batch — and the side call's own result never changes
the reported batch outcome (or anything else the batch reports). -/
theorem c4_stats_call_scope (env : BatchEnv) (s : Except String Unit)
    (n : Nat) (id : Option String) (r : BatchResult)
    (h : handleMultipleRuns env n id = some r) :
    (r.statsCallIssued = true ↔ (r.outcome = Outcome.completed ∧ truthyId id = true)) ∧
    handleMultipleRuns ⟨env.cancelRead, env.runOutcome, s⟩ n id = some r := by
  by_cases hn : n = 0
  · rw [handleMultipleRuns, if_pos hn] at h
    cases h
  · obtain ⟨c, ro, s0⟩ := env
    rw [handleMultipleRuns, if_neg hn] at h
    simp only [Option.some.injEq] at h
    subst h
    have hcongr := batchLoop_stats_irrel c ro s0 s n 0 0 [] []
    constructor
    · cases hw : (batchLoop ⟨c, ro, s0⟩ 0 0 [] [] n).wasCancelled <;>
        cases he : (batchLoop ⟨c, ro, s0⟩ 0 0 [] [] n).err <;>
          simp [hw, he]
    · rw [handleMultipleRuns, if_neg hn, ← hcongr]

/-- C4 witness: a completed 2-run batch with a truthy workflow id issues
the side call, and replacing the side call's result with a failure leaves
the reported batch result unchanged. -/
theorem c4_witness :
    handleMultipleRuns c4wEnv 2 (some "w") = some c4wRes ∧
    ((c4wRes.statsCallIssued = true
        ↔ (c4wRes.outcome = Outcome.completed ∧ truthyId (some "w") = true)) ∧
     handleMultipleRuns ⟨c4wEnv.cancelRead, c4wEnv.runOutcome, .error "x"⟩ 2 (some "w")
        = some c4wRes) :=
  ⟨by decide,
   c4_stats_call_scope c4wEnv (.error "x") 2 (some "w") c4wRes (by decide)⟩

/-- C1 counterexample: under a provider that answers every call with a
resolvable tool invocation, the run makes 11 model calls — the initial
call plus the 10 capped loop iterations — refuting the claimed bound of
10 total model calls (the run still terminates normally). -/
theorem c1_counterexample :
    c1env.respond = (fun _ => Except.ok c1resp) ∧
    c1resp.toolCalls ≠ [] ∧
    ¬ (executeRequest c1env c1req).trace.modelCalls ≤ 10 ∧
    (executeRequest c1env c1req).trace.modelCalls = 11 := by
  exact ⟨rfl, by decide, by decide, by decide⟩

/-- C1 (amended): under a provider whose calls all succeed and always
request at least one tool invocation, the run terminates normally (no
error is raised) after exactly `MAX_ITERATIONS + 1 = 11` model calls: the
initial call plus one call per capped loop iteration. -/
theorem c1_cap_bounds_model_calls (env : Env) (req : ProviderRequest)
    (hkey : req.apiKey.isSome = true)
    (hall : ∀ i, ∃ r, env.respond i = .ok r ∧ r.toolCalls ≠ []) :
    (executeRequest env req).result.toOption.isSome = true ∧
    (executeRequest env req).trace.modelCalls = MAX_ITERATIONS + 1 := by
  obtain ⟨key, hk⟩ := Option.isSome_iff_exists.mp hkey
  obtain ⟨r0, hr0, hr0ne⟩ := hall 0
  have hst : (initState r0 (initMessages req)).current.toolCalls ≠ [] := hr0ne
  obtain ⟨h1, h2⟩ := rl_all_tools env req.tools hall MAX_ITERATIONS
    (initState r0 (initMessages req)) hst
  simp only [executeRequest, hk, hr0, h1]
  constructor
  · rfl
  · rw [h2]
    rfl

/-- C1 witness: the always-tool-calling environment reaches exactly 11
model calls and a normal return. -/
theorem c1_witness :
    c1req.apiKey.isSome = true ∧
    (executeRequest c1env c1req).result.toOption.isSome = true ∧
    (executeRequest c1env c1req).trace.modelCalls = MAX_ITERATIONS + 1 :=
  ⟨rfl,
   (c1_cap_bounds_model_calls c1env c1req rfl
      (fun _ => ⟨c1resp, rfl, by decide⟩)).1,
   (c1_cap_bounds_model_calls c1env c1req rfl
      (fun _ => ⟨c1resp, rfl, by decide⟩)).2⟩

/-- C10: a normal return reports `iterations` equal to the number of
model calls made (the tool-processing iterations plus the initial call),
the reported count is at least 1, and when the first response requests no
tool invocations the reported count is exactly 1. -/
theorem c10_iterations_count_model_calls (env : Env) (req : ProviderRequest)
    (r : ProviderResponse) (r0 : ModelResponse)
    (h : (executeRequest env req).result = .ok r)
    (h0 : env.respond 0 = .ok r0) :
    r.timing.iterations = (executeRequest env req).trace.modelCalls ∧
    1 ≤ r.timing.iterations ∧
    (r0.toolCalls.isEmpty = false ∨ r.timing.iterations = 1) := by
  cases hk : req.apiKey with
  | none => simp [executeRequest, hk] at h
  | some key =>
    simp only [executeRequest, hk, h0] at h ⊢
    revert h
    cases h1 : (runLoop env req.tools MAX_ITERATIONS
        (initState r0 (initMessages req))).1 with
    | some e =>
      intro h
      simp at h
    | none =>
      intro h
      have hr : finishResp req r0 (runLoop env req.tools MAX_ITERATIONS
          (initState r0 (initMessages req))).2 = r := by
        simpa using h
      subst hr
      have hiter := rl_iter env req.tools MAX_ITERATIONS
        (initState r0 (initMessages req)) rfl h1
      refine ⟨?_, ?_, ?_⟩
      · show (finishResp req r0 (runLoop env req.tools MAX_ITERATIONS
            (initState r0 (initMessages req))).2).timing.iterations
          = (runLoop env req.tools MAX_ITERATIONS
              (initState r0 (initMessages req))).2.modelCalls
        simp only [finishResp]
        omega
      · simp only [finishResp]
        omega
      · cases hcs : r0.toolCalls.isEmpty with
        | false => exact Or.inl rfl
        | true =>
          refine Or.inr ?_
          have hnil : r0.toolCalls = [] := by
            cases hc2 : r0.toolCalls with
            | nil => rfl
            | cons a t => rw [hc2] at hcs; simp at hcs
          have hstop := rl_noTools env req.tools
            (initState r0 (initMessages req)) hnil MAX_ITERATIONS
          rw [hstop]
          simp [finishResp, initState]

/-- C10 witness: the two-iteration run of `c3env` reports
`iterations = 2`, matching its 2 model calls; the no-tool first response
disjunct holds through its left side. -/
theorem c10_witness :
    (executeRequest c3env c3req).result = .ok (respOf (executeRequest c3env c3req) dummyResp) ∧
    c3env.respond 0 = .ok c3resp0 ∧
    ((respOf (executeRequest c3env c3req) dummyResp).timing.iterations
        = (executeRequest c3env c3req).trace.modelCalls ∧
      1 ≤ (respOf (executeRequest c3env c3req) dummyResp).timing.iterations ∧
      (c3resp0.toolCalls.isEmpty = false ∨
        (respOf (executeRequest c3env c3req) dummyResp).timing.iterations = 1)) :=
  ⟨rfl, rfl,
   c10_iterations_count_model_calls c3env c3req
     (respOf (executeRequest c3env c3req) dummyResp) c3resp0 rfl rfl⟩

/-- C9: a normal return's token counters are exactly the componentwise sum
of the per-call usage the provider reported over all model calls of the
run, and the counters accumulated after any prefix of those calls are
componentwise no larger — the counters never decrease over the run. -/
theorem c9_token_accounting (env : Env) (req : ProviderRequest)
    (r : ProviderResponse) (n : Nat)
    (h : (executeRequest env req).result = .ok r)
    (hn : n ≤ (executeRequest env req).trace.modelCalls) :
    r.tokens = usageSum env (executeRequest env req).trace.modelCalls ∧
    Tokens.le (usageSum env n) r.tokens := by
  cases hk : req.apiKey with
  | none => simp [executeRequest, hk] at h
  | some key =>
    cases hr0 : env.respond 0 with
    | error e => simp [executeRequest, hk, hr0] at h
    | ok r0 =>
      simp only [executeRequest, hk, hr0] at h hn ⊢
      revert h
      cases h1 : (runLoop env req.tools MAX_ITERATIONS
          (initState r0 (initMessages req))).1 with
      | some e =>
        intro h
        simp at h
      | none =>
        intro h
        rw [h1] at hn
        have hr : finishResp req r0 (runLoop env req.tools MAX_ITERATIONS
            (initState r0 (initMessages req))).2 = r := by
          simpa using h
        subst hr
        have hinit : (initState r0 (initMessages req)).tokens
            = usageSum env (initState r0 (initMessages req)).modelCalls := by
          simp only [initState]
          rw [addUsage_eq_addTokens]
          have ht0 : tokensOfCall env 0
              = (match r0.usage with
                 | some u => (⟨u.prompt, u.completion, u.total⟩ : Tokens)
                 | none => ⟨0, 0, 0⟩) := by
            simp only [tokensOfCall, hr0]
          simp [usageSum, ht0, addTokens]
        have htok := rl_tokens env req.tools MAX_ITERATIONS
          (initState r0 (initMessages req)) hinit h1
        have hfin : (finishResp req r0 (runLoop env req.tools MAX_ITERATIONS
            (initState r0 (initMessages req))).2).tokens
            = usageSum env (runLoop env req.tools MAX_ITERATIONS
                (initState r0 (initMessages req))).2.modelCalls := by
          simpa [finishResp] using htok
        constructor
        · show (finishResp req r0 (runLoop env req.tools MAX_ITERATIONS
              (initState r0 (initMessages req))).2).tokens
            = usageSum env (runLoop env req.tools MAX_ITERATIONS
                (initState r0 (initMessages req))).2.modelCalls
          exact hfin
        · have hle := usageSum_le env n (runLoop env req.tools MAX_ITERATIONS
            (initState r0 (initMessages req))).2.modelCalls (by simpa using hn)
          rw [hfin]
          exact hle

/-- C9 witness: for the two-call run of `c3env` the final counters equal
the summed per-call usage, and the prefix sum after the first call is
componentwise below them. -/
theorem c9_witness :
    (executeRequest c3env c3req).result = .ok (respOf (executeRequest c3env c3req) dummyResp) ∧
    1 ≤ (executeRequest c3env c3req).trace.modelCalls ∧
    ((respOf (executeRequest c3env c3req) dummyResp).tokens
        = usageSum c3env (executeRequest c3env c3req).trace.modelCalls ∧
      Tokens.le (usageSum c3env 1) (respOf (executeRequest c3env c3req) dummyResp).tokens) :=
  ⟨rfl, by decide,
   c9_token_accounting c3env c3req
     (respOf (executeRequest c3env c3req) dummyResp) 1 rfl (by decide)⟩

/-- C2 counterexample: a run whose one tool execution fails after 5 time
units reports `toolsTime = 5` while the recorded `tool` segments sum to 0
— the batch span is charged to `toolsTime` even though no segment is
recorded for a failed call — refuting the claimed equality for
`toolsTime`. -/
theorem c2_counterexample :
    reportedToolsTime (executeRequest c2env c2req) = some 5 ∧
    reportedToolSegSum (executeRequest c2env c2req) = some 0 ∧
    ¬ reportedToolsTime (executeRequest c2env c2req)
        = reportedToolSegSum (executeRequest c2env c2req) := by
  exact ⟨by decide, by decide, by decide⟩

/-- C2 (amended): on a normal return, `modelTime` equals the sum of the
durations of the recorded `model` segments; `toolsTime` equals the total
duration of every tool execution performed (successful or failed), while
the recorded `tool` segments sum to the duration of the successful ones
only — so the two coincide exactly when every executed invocation
succeeded. -/
theorem c2_time_accounting (env : Env) (req : ProviderRequest) :
    reportedModelTime (executeRequest env req)
      = reportedModelSegSum (executeRequest env req) ∧
    reportedToolsTime (executeRequest env req)
      = ifOk (executeRequest env req) (execDurSum (executeRequest env req).trace.execLog) ∧
    reportedToolSegSum (executeRequest env req)
      = ifOk (executeRequest env req) (okDurSum (executeRequest env req).trace.execLog) := by
  cases hk : req.apiKey with
  | none =>
    simp [executeRequest, hk, reportedModelTime, reportedModelSegSum,
      reportedToolsTime, reportedToolSegSum, ifOk, Except.toOption]
  | some key =>
    cases hr0 : env.respond 0 with
    | error e =>
      simp [executeRequest, hk, hr0, reportedModelTime, reportedModelSegSum,
        reportedToolsTime, reportedToolSegSum, ifOk, Except.toOption]
    | ok r0 =>
      have hinv : timeInv (initState r0 (initMessages req)) := by
        refine ⟨?_, ?_, ?_⟩ <;>
          simp [initState, modelSegSum, toolSegSum, execDurSum, okDurSum]
      obtain ⟨f1, f2, f3⟩ := rl_timeInv env req.tools MAX_ITERATIONS
        (initState r0 (initMessages req)) hinv
      simp only [executeRequest, hk, hr0]
      cases h1 : (runLoop env req.tools MAX_ITERATIONS
          (initState r0 (initMessages req))).1 with
      | some e =>
        simp [reportedModelTime, reportedModelSegSum, reportedToolsTime,
          reportedToolSegSum, ifOk, Except.toOption]
      | none =>
        simp [reportedModelTime, reportedModelSegSum, reportedToolsTime,
          reportedToolSegSum, ifOk, Except.toOption, finishResp, f1, f2, f3]

/-- C3 counterexample: an iteration processing two successful tool calls
appends two assistant messages — one per call, each carrying a single
declaration — not exactly one assistant message for the batch; the run has
one tool-processing iteration (`iterations = 2`), an empty initial
transcript, and its final transcript holds two assistant/tool pairs. -/
theorem c3_counterexample :
    (executeRequest c3env c3req).trace.messages
      = [Msg.assistantToolCall "c1" "t" "", Msg.toolResult "c1" (.str "out"),
         Msg.assistantToolCall "c2" "t" "", Msg.toolResult "c2" (.str "out")] ∧
    ((executeRequest c3env c3req).trace.messages.filter
        (fun m => m.role == "assistant")).length = 2 ∧
    (respOf (executeRequest c3env c3req) dummyResp).timing.iterations = 2 := by
  exact ⟨by decide, by decide, by decide⟩

/-- C3 (amended): in each iteration's batch, every *successful* tool
invocation appends exactly one assistant message carrying that single
invocation's declaration immediately followed by its tool-result message;
invocations that fail to parse, resolve, or execute append nothing — in
particular attempted-but-failed calls do not appear in the transcript. -/
theorem c3_transcript_per_successful_call (env : Env) (tools : List ToolDescr)
    (st : LoopState) (calls : List ToolCallReq) :
    (processCalls env tools st calls).messages
      = st.messages ++ toolBatchMsgs env tools calls :=
  pcs_messages env tools st calls

end Taam
